import Mathlib

/-!
Shallow embedding of `src/resolv/stub/mod.rs` of the `domain` crate: the
rotor-based DNS stub-resolver transport core.  The file embeds the code of
`mod.rs` directly; the submodules it uses (`dispatcher`, `udp`, `tcp`,
`sync`, `query`, the `rotor` crate, the message codec and the task
contract) are not part of the given source tree, so they appear here either
as abstract type parameters with quantified behaviour, or as small
definitions modelled from the specification, each marked as such.
-/

namespace DomainStub

/-! ### The rotor machine interface (external collaborator)

Model of `rotor::Response<M, N>`: a lifecycle callback either continues with
a machine (`ok`, or `deadline` which also carries a wakeup time), spawns a
child machine seed while continuing (`spawn`), stops (`done`), or fails
(`error`; the error payload is irrelevant here and elided).  `map f g`
rewraps the continuing machine with `f` and the seed with `g`, exactly as
`rotor::Response::map` does. -/
inductive Response (M : Type) (N : Type) where
  | ok : M → Response M N
  | deadline : M → Nat → Response M N
  | spawn : M → N → Response M N
  | done : Response M N
  | error : Response M N
deriving DecidableEq, Repr

/-- Map of a rotor response: `f` on the continuing machine, `g` on the seed. -/
def Response.map {M M' N N' : Type} (f : M → M') (g : N → N') :
    Response M N → Response M' N'
  | .ok m => .ok (f m)
  | .deadline m t => .deadline (f m) t
  | .spawn m n => .spawn (f m) (g n)
  | .done => .done
  | .error => .error

/-- Continuing machine carried by a response, if any. -/
def Response.machine {M N : Type} : Response M N → Option M
  | .ok m => some m
  | .deadline m _ => some m
  | .spawn m _ => some m
  | .done => none
  | .error => none

/-! ### Composition and DnsTransport

`Composition<X>` is the enum over the three inner machines.  The inner
machine types `D` (Dispatcher), `U` (UdpTransport) and `T` (TcpTransport)
live in submodules outside the given source, so they are abstract type
parameters and their lifecycle behaviour is a bundle of arbitrary
functions (`InnerOps`); every theorem quantifies over that bundle. -/
inductive Composition (D U T : Type) where
  | dispatcher : D → Composition D U T
  | udp : U → Composition D U T
  | tcp : T → Composition D U T
deriving DecidableEq, Repr

/-- Model of `struct DnsTransport<X>(Composition<X>)`. -/
structure DnsTransport (D U T : Type) where
  comp : Composition D U T
deriving DecidableEq, Repr

/-- Modelled from the spec: a bootstrap seed (`dispatcher::BootstrapItem`,
whose source is missing) names a nameserver/protocol combination; its two
variants `Udp`/`Tcp` are visible in the `match` of `DnsTransport::create`.
`US` and `TS` are the (unknown) seed payload types of the two transports. -/
inductive BootstrapItem (US TS : Type) where
  | udp : US → BootstrapItem US TS
  | tcp : TS → BootstrapItem US TS
deriving DecidableEq, Repr

/-- Behaviour bundle for the three inner machines.  Each field stands for
one lifecycle method of `Dispatcher<X>`, `UdpTransport<X>` or
`TcpTransport<X>`; the ones of the dispatcher produce `BootstrapItem`
seeds (its `map` uses the identity `|x| x`), the transports have their own
seed types.  `uSeedMap`/`tSeedMap` stand for the `|_| unreachable!()` seed
conversions in `mod.rs`: the source asserts those branches are never taken
(it panics there); they are modelled as arbitrary total functions, which
leaves every claim about the continuing machine untouched.  `ES` models
`rotor::EventSet`. -/
structure InnerOps (D U T US TS ES : Type) where
  uCreate : US → Response U Empty
  tCreate : TS → Response T Empty
  dReady : D → ES → Response D (BootstrapItem US TS)
  uReady : U → ES → Response U US
  tReady : T → ES → Response T TS
  dSpawned : D → Response D (BootstrapItem US TS)
  uSpawned : U → Response U US
  tSpawned : T → Response T TS
  dTimeout : D → Response D (BootstrapItem US TS)
  uTimeout : U → Response U US
  tTimeout : T → Response T TS
  dWakeup : D → Response D (BootstrapItem US TS)
  uWakeup : U → Response U US
  tWakeup : T → Response T TS
  uSeedMap : US → BootstrapItem US TS
  tSeedMap : TS → BootstrapItem US TS

variable {D U T US TS ES : Type}

/-- Model of `<DnsTransport as Machine>::create`: dispatch on the seed
variant, create the matching transport and wrap it in the same variant. -/
def DnsTransport.create (ops : InnerOps D U T US TS ES)
    (seed : BootstrapItem US TS) : Response (DnsTransport D U T) Empty :=
  match seed with
  | .udp s => (ops.uCreate s).map (fun m => ⟨.udp m⟩) id
  | .tcp s => (ops.tCreate s).map (fun m => ⟨.tcp m⟩) id

/-- Model of `<DnsTransport as Machine>::ready`. -/
def DnsTransport.ready (ops : InnerOps D U T US TS ES)
    (self : DnsTransport D U T) (events : ES) :
    Response (DnsTransport D U T) (BootstrapItem US TS) :=
  match self.comp with
  | .dispatcher m => (ops.dReady m events).map (fun m => ⟨.dispatcher m⟩) id
  | .udp m => (ops.uReady m events).map (fun m => ⟨.udp m⟩) ops.uSeedMap
  | .tcp m => (ops.tReady m events).map (fun m => ⟨.tcp m⟩) ops.tSeedMap

/-- Model of `<DnsTransport as Machine>::spawned`. -/
def DnsTransport.spawned (ops : InnerOps D U T US TS ES)
    (self : DnsTransport D U T) :
    Response (DnsTransport D U T) (BootstrapItem US TS) :=
  match self.comp with
  | .dispatcher m => (ops.dSpawned m).map (fun m => ⟨.dispatcher m⟩) id
  | .udp m => (ops.uSpawned m).map (fun m => ⟨.udp m⟩) ops.uSeedMap
  | .tcp m => (ops.tSpawned m).map (fun m => ⟨.tcp m⟩) ops.tSeedMap

/-- Model of `<DnsTransport as Machine>::timeout`. -/
def DnsTransport.timeoutCb (ops : InnerOps D U T US TS ES)
    (self : DnsTransport D U T) :
    Response (DnsTransport D U T) (BootstrapItem US TS) :=
  match self.comp with
  | .dispatcher m => (ops.dTimeout m).map (fun m => ⟨.dispatcher m⟩) id
  | .udp m => (ops.uTimeout m).map (fun m => ⟨.udp m⟩) ops.uSeedMap
  | .tcp m => (ops.tTimeout m).map (fun m => ⟨.tcp m⟩) ops.tSeedMap

/-- Model of `<DnsTransport as Machine>::wakeup`. -/
def DnsTransport.wakeupCb (ops : InnerOps D U T US TS ES)
    (self : DnsTransport D U T) :
    Response (DnsTransport D U T) (BootstrapItem US TS) :=
  match self.comp with
  | .dispatcher m => (ops.dWakeup m).map (fun m => ⟨.dispatcher m⟩) id
  | .udp m => (ops.uWakeup m).map (fun m => ⟨.udp m⟩) ops.uSeedMap
  | .tcp m => (ops.tWakeup m).map (fun m => ⟨.tcp m⟩) ops.tSeedMap

/-- The variant tag of a composed machine. -/
inductive VariantTag where
  | dispatcher
  | udp
  | tcp
deriving DecidableEq, Repr

/-- Which of the three variants a `DnsTransport` holds. -/
def DnsTransport.tag : DnsTransport D U T → VariantTag
  | ⟨.dispatcher _⟩ => .dispatcher
  | ⟨.udp _⟩ => .udp
  | ⟨.tcp _⟩ => .tcp

/-- Model of `struct Resolver`: one cloned request sender. -/
structure Resolver (SndH : Type) where
  requests : SndH
deriving DecidableEq, Repr

/-! ### DnsTransport construction

`DnsTransport::new` builds the dispatcher variant; `DnsTransport::spawn`
builds a rotor loop, adds the transport machine to it and runs the loop on
a background thread.  `rotor::Loop` is an external collaborator: loop
creation (`LoopC` the loop value, `IoErr` its creation error) and machine
insertion (`AddErr` its error, only `NoSlabSpace` in rotor) are abstract
outcomes supplied as arguments. -/

/-- Model of `DnsTransport::new`: `Dispatcher::new` (outside the given
source, abstract: from the config it returns the dispatcher machine and
the request-channel sender `tx`) is called, the dispatcher is wrapped in
the `Dispatcher` variant, and the resolver is built from `tx`. -/
def DnsTransport.new {Conf SndH : Type} (dNew : Conf → D × SndH)
    (conf : Conf) : DnsTransport D U T × Resolver SndH :=
  (⟨.dispatcher (dNew conf).1⟩, ⟨(dNew conf).2⟩)

/-- Result of `DnsTransport::spawn`: an `io::Result` whose error is the
loop-creation error, whose success is the pair of the join handle (opaque,
modelled as `Unit`) and the resolver; plus an explicit `panicked` value
for the `unwrap()` on `add_machine_with`. -/
inductive SpawnResult (IoErr SndH : Type) where
  | err : IoErr → SpawnResult IoErr SndH
  | panicked : SpawnResult IoErr SndH
  | ok : Unit → Resolver SndH → SpawnResult IoErr SndH
deriving DecidableEq, Repr

/-- Model of `DnsTransport::spawn`: `try!` on loop creation, `unwrap()` on
adding the machine (the source comments that only a fatal `NoSlabSpace`
can happen there), then the thread is spawned and the handle returned with
the resolver produced by `DnsTransport::new` inside the closure. -/
def DnsTransport.spawn {Conf SndH LoopC IoErr AddErr : Type}
    (dNew : Conf → D × SndH) (loopNew : Except IoErr LoopC)
    (addMachine : LoopC → Except AddErr Unit) (conf : Conf) :
    SpawnResult IoErr SndH :=
  match loopNew with
  | .error e => .err e
  | .ok lp =>
    match addMachine lp with
    | .error _ => .panicked
    | .ok _ =>
      .ok () (DnsTransport.new dNew conf :
        DnsTransport D Unit Unit × Resolver SndH).2

/-! ### The resolver side

The resolver and the task-driving machine of `mod.rs`.  Abstract type
parameters: `Tk` the task state (`T: Task`), `S` its success type
(`T::Success`), `Q` a question triple `(qname, qtype, qclass)`, `E` the
message-composition error of `MessageBuf::query_from_question`, `Msg` the
wire message (`MessageBuf`), `SndH` the request sender handle
(`RotorSender<Query>`), `RId` the identity of a response receiver
(`RotorReceiver`, whose `sender()` addresses it). -/

/-- Modelled from the spec: `resolv::error::Error` (its source is missing).
Spec section 7 lists the error kinds; here only the shape matters: a
distinguished `timeout` kind, the kind an encode error converts `.into()`,
and all remaining kinds collapsed into `other`. -/
inductive DnsError (E : Type) where
  | timeout : DnsError E
  | encode : E → DnsError E
  | other : Nat → DnsError E
deriving DecidableEq, Repr

/-- Modelled from the spec: `resolv::tasks::Progress` (its source is
missing), the result of a task step: "returning one of {Continue(next task
state), Success(result), Error(kind)}" (spec section 4.1). -/
inductive Progress (Tk S E : Type) where
  | cont : Tk → Progress Tk S E
  | success : S → Progress Tk S E
  | error : DnsError E → Progress Tk S E
deriving DecidableEq, Repr

/-- Modelled from the spec: `query::Query` (its source is missing) is the
pair of the "outgoing message (opaque wire buffer)" and the "response
sender (one-shot channel endpoint)" (spec section 3); `Query::new` in
`mod.rs` is given exactly these two components. -/
structure Query (Msg RId : Type) where
  message : Msg
  sender : RId
deriving DecidableEq, Repr

/-- Modelled from the spec: the `Task` contract (spec section 4.1), with
emission made explicit: `start t` returns the started task together with
the list of questions it passed to `emit`, in order, and `tprogress t r`
likewise returns the task's progress value and its emitted questions.  The
driving machine in `mod.rs` sees nothing more of a task. -/
structure TaskOps (Tk S Q E Msg : Type) where
  start : Tk → Tk × List Q
  tprogress : Tk → Except (DnsError E) Msg → Progress Tk S E × List Q

/-- Model of `struct ResolverMachine<T: Task>` with its three fields. -/
structure ResolverMachine (Tk SndH RId : Type) where
  requests : SndH
  receiver : RId
  task : Tk
deriving DecidableEq, Repr

variable {Tk S Q E Msg SndH RId : Type}

/-- Result of running the emit closure of `ResolverMachine::new` or
`ResolverMachine::progress` over the questions a task emitted:
`finished sent res` holds the queries submitted to the request channel and
the final value of the mutable `res` variable (`none` for `Ok(())`, else
the latest encode error, since each failing encode overwrites `res`);
`panicked sent` records that a `send(query).unwrap()` panicked because the
channel was disconnected, after `sent` had already been submitted. -/
inductive EmitRun (E Msg RId : Type) where
  | finished : List (Query Msg RId) → Option E → EmitRun E Msg RId
  | panicked : List (Query Msg RId) → EmitRun E Msg RId
deriving DecidableEq, Repr

/-- The emit closure of `mod.rs`, folded over the emitted questions.
`encode` is `MessageBuf::query_from_question` (an external codec, abstract);
`connected` says whether the request channel's receiving end is still
alive: per spec section 4.2 "`send` is non-blocking and fails only if the
receiving side has been dropped", and the source unwraps that result. -/
def runEmit (encode : Q → Except E Msg) (connected : Bool) (rid : RId) :
    List Q → List (Query Msg RId) → Option E → EmitRun E Msg RId
  | [], sent, res => .finished sent res
  | q :: qs, sent, res =>
    match encode q with
    | .error e => runEmit encode connected rid qs sent (some e)
    | .ok msg =>
      if connected then
        runEmit encode connected rid qs (sent ++ [⟨msg, rid⟩]) res
      else
        .panicked sent

/-- Outcome of `ResolverMachine::new`, with the panic of the unwrapped
`send` made an explicit value. -/
inductive NewOutcome (Tk E SndH RId : Type) where
  | panicked : NewOutcome Tk E SndH RId
  | err : DnsError E → NewOutcome Tk E SndH RId
  | ok : ResolverMachine Tk SndH RId → NewOutcome Tk E SndH RId
deriving DecidableEq, Repr

/-- Outcome of `ResolverMachine::new` together with the queries it
submitted to the dispatcher channel before finishing. -/
structure NewOut (Tk E Msg SndH RId : Type) where
  submitted : List (Query Msg RId)
  outcome : NewOutcome Tk E SndH RId
deriving DecidableEq, Repr

/-- Model of `ResolverMachine::new`: clone the resolver's request sender,
create a fresh receiver (`rid`; the notifier only affects wakeups and is
dropped from the model), run `task.start` with the emit closure, then fail
with the recorded encode error if any, else build the machine. -/
def ResolverMachine.mkNew (ops : TaskOps Tk S Q E Msg)
    (encode : Q → Except E Msg) (connected : Bool)
    (requests : SndH) (rid : RId) (task : Tk) : NewOut Tk E Msg SndH RId :=
  match runEmit encode connected rid (ops.start task).2 [] none with
  | .panicked sent => ⟨sent, .panicked⟩
  | .finished sent (some e) => ⟨sent, .err (.encode e)⟩
  | .finished sent none => ⟨sent, .ok ⟨requests, rid, (ops.start task).1⟩⟩

/-- Outcome of one `ResolverMachine` step (`wakeup`, `step` or the private
`progress`): the `Progress<Self, T::Success>` of the source, plus an
explicit `panicked` value for the unwrapped `send`. -/
inductive StepOutcome (Tk S E SndH RId : Type) where
  | panicked : StepOutcome Tk S E SndH RId
  | cont : ResolverMachine Tk SndH RId → StepOutcome Tk S E SndH RId
  | success : S → StepOutcome Tk S E SndH RId
  | error : DnsError E → StepOutcome Tk S E SndH RId
deriving DecidableEq, Repr

/-- Step outcome together with the queries submitted during the step. -/
structure StepOut (Tk S E Msg SndH RId : Type) where
  submitted : List (Query Msg RId)
  outcome : StepOutcome Tk S E SndH RId
deriving DecidableEq, Repr

/-- Model of the private `ResolverMachine::progress`: run the task's
`progress` on the response with the emit closure; if `res` recorded an
encode error the whole step is that error; otherwise mirror the task's
progress, rebuilding the machine around the new task state on `Continue`. -/
def ResolverMachine.progress (ops : TaskOps Tk S Q E Msg)
    (encode : Q → Except E Msg) (connected : Bool)
    (self : ResolverMachine Tk SndH RId)
    (response : Except (DnsError E) Msg) : StepOut Tk S E Msg SndH RId :=
  match runEmit encode connected self.receiver
      (ops.tprogress self.task response).2 [] none with
  | .panicked sent => ⟨sent, .panicked⟩
  | .finished sent (some e) => ⟨sent, .error (.encode e)⟩
  | .finished sent none =>
    match (ops.tprogress self.task response).1 with
    | .cont t => ⟨sent, .cont ⟨self.requests, self.receiver, t⟩⟩
    | .success s => ⟨sent, .success s⟩
    | .error e => ⟨sent, .error e⟩

/-- Modelled from the spec: what `RotorReceiver::try_recv` can yield to
`ResolverMachine::wakeup` (spec section 4.2): a received message, "empty"
when nothing is ready, "disconnected" when the sender side is gone. -/
inductive TryRecvInput (E Msg : Type) where
  | msg : Except (DnsError E) Msg → TryRecvInput E Msg
  | empty : TryRecvInput E Msg
  | disconnected : TryRecvInput E Msg
deriving Repr

/-- Modelled from the spec: what the blocking `RotorReceiver::recv` can
yield to `ResolverMachine::step` (spec section 4.2): a received message,
or failure when "the sender side is fully dropped". -/
inductive RecvInput (E Msg : Type) where
  | msg : Except (DnsError E) Msg → RecvInput E Msg
  | disconnected : RecvInput E Msg
deriving Repr

/-- Model of `ResolverMachine::wakeup`, with the `try_recv` result supplied
as input: `Empty` continues unchanged, `Disconnected` is reported as
`Error(Error::Timeout)`, a message goes through `progress`. -/
def ResolverMachine.wakeup (ops : TaskOps Tk S Q E Msg)
    (encode : Q → Except E Msg) (connected : Bool)
    (self : ResolverMachine Tk SndH RId) (input : TryRecvInput E Msg) :
    StepOut Tk S E Msg SndH RId :=
  match input with
  | .empty => ⟨[], .cont self⟩
  | .disconnected => ⟨[], .error .timeout⟩
  | .msg response => self.progress ops encode connected response

/-- Model of `ResolverMachine::step`, with the `recv` result supplied as
input: a failed `recv` is reported as `Error(Error::Timeout)`, a message
goes through `progress`. -/
def ResolverMachine.step (ops : TaskOps Tk S Q E Msg)
    (encode : Q → Except E Msg) (connected : Bool)
    (self : ResolverMachine Tk SndH RId) (input : RecvInput E Msg) :
    StepOut Tk S E Msg SndH RId :=
  match input with
  | .disconnected => ⟨[], .error .timeout⟩
  | .msg response => self.progress ops encode connected response

/-- Result of `Resolver::sync_task` under a finite schedule of `recv`
results: `blocked` means the schedule ran out while the loop was still
waiting on `recv` (the real call would block). -/
inductive SyncResult (S E : Type) where
  | ok : S → SyncResult S E
  | err : DnsError E → SyncResult S E
  | panicked : SyncResult S E
  | blocked : SyncResult S E
deriving DecidableEq, Repr

/-- The loop of `Resolver::sync_task`: `step` repeatedly, rebinding the
machine on `Continue`, returning on `Success` or `Error`. -/
def syncLoop (ops : TaskOps Tk S Q E Msg) (encode : Q → Except E Msg)
    (connected : Bool) :
    ResolverMachine Tk SndH RId → List (RecvInput E Msg) → SyncResult S E
  | _, [] => .blocked
  | m, i :: rest =>
    match (m.step ops encode connected i).outcome with
    | .cont m' => syncLoop ops encode connected m' rest
    | .success s => .ok s
    | .error e => .err e
    | .panicked => .panicked

/-- Model of `Resolver::sync_task`: create the machine (with no notifier),
propagating a creation error via `try!`, then run the blocking loop. -/
def Resolver.syncTask (ops : TaskOps Tk S Q E Msg)
    (encode : Q → Except E Msg) (connected : Bool)
    (self : Resolver SndH) (rid : RId) (task : Tk)
    (inputs : List (RecvInput E Msg)) : SyncResult S E :=
  match (ResolverMachine.mkNew ops encode connected self.requests rid
      task).outcome with
  | .panicked => .panicked
  | .err e => .err e
  | .ok m => syncLoop ops encode connected m inputs

/-- Model of `Resolver::task`: build a `ResolverMachine` (in the source
with the scope's notifier, which the model elides) and hand it out. -/
def Resolver.task (ops : TaskOps Tk S Q E Msg)
    (encode : Q → Except E Msg) (connected : Bool)
    (self : Resolver SndH) (rid : RId) (task : Tk) :
    NewOut Tk E Msg SndH RId :=
  ResolverMachine.mkNew ops encode connected self.requests rid task

/-- Machine reached after `n` consecutive `Continue` steps of the sync
loop, with the unconsumed rest of the schedule; `none` if the loop stopped
or the schedule ran out first. -/
def runSteps (ops : TaskOps Tk S Q E Msg) (encode : Q → Except E Msg)
    (connected : Bool) :
    ResolverMachine Tk SndH RId → List (RecvInput E Msg) → Nat →
    Option (ResolverMachine Tk SndH RId × List (RecvInput E Msg))
  | m, is, 0 => some (m, is)
  | _, [], _ + 1 => none
  | m, i :: rest, n + 1 =>
    match (m.step ops encode connected i).outcome with
    | .cont m' => runSteps ops encode connected m' rest n
    | _ => none

/-- Queries built from the successfully encoding questions of a list, in
order, each carrying a sender to the receiver `rid`. -/
def encodedQueries (encode : Q → Except E Msg) (rid : RId) (qs : List Q) :
    List (Query Msg RId) :=
  (qs.filterMap fun q => (encode q).toOption).map fun msg => ⟨msg, rid⟩

/-- Value held by the mutable `res` variable of the emit closures after
the whole list of questions has been processed: every encode failure
overwrites it, a success leaves it alone. -/
def lastEncodeErr (encode : Q → Except E Msg) :
    Option E → List Q → Option E
  | res, [] => res
  | res, q :: qs =>
    match encode q with
    | .error e => lastEncodeErr encode (some e) qs
    | .ok _ => lastEncodeErr encode res qs

/-! ### Concrete instances used by the witnesses -/

/-- A trivial inner-machine bundle over `Unit` machines, every callback
answering `Response.ok`. -/
def unitOps : InnerOps Unit Unit Unit Unit Unit Unit where
  uCreate _ := .ok ()
  tCreate _ := .ok ()
  dReady _ _ := .ok ()
  uReady _ _ := .ok ()
  tReady _ _ := .ok ()
  dSpawned _ := .ok ()
  uSpawned _ := .ok ()
  tSpawned _ := .ok ()
  dTimeout _ := .ok ()
  uTimeout _ := .ok ()
  tTimeout _ := .ok ()
  dWakeup _ := .ok ()
  uWakeup _ := .ok ()
  tWakeup _ := .ok ()
  uSeedMap _ := .udp ()
  tSeedMap _ := .udp ()

/-- A concrete encoder used by witnesses: question `0` fails to encode,
any other question `n` encodes to the message `n`. -/
def witnessEncode : Nat → Except Unit Nat :=
  fun n => if n = 0 then .error () else .ok n

/-- A concrete task used by witnesses: emits nothing and succeeds on the
first response. -/
def quietTaskOps : TaskOps Unit Unit Nat Unit Nat where
  start := fun t => (t, [])
  tprogress := fun _ _ => (.success (), [])

/-- A concrete task used by witnesses: emits questions `1` and `0` (the
second fails to encode under `witnessEncode`) at start and at each
progress step, and claims success. -/
def emitTaskOps : TaskOps Unit Unit Nat Unit Nat where
  start := fun t => (t, [1, 0])
  tprogress := fun _ _ => (.success (), [1, 0])

/-- A concrete task used by witnesses: emits questions `1` and `2` (both
encode under `witnessEncode`) at start and at each progress step, and
continues. -/
def okTaskOps : TaskOps Unit Unit Nat Unit Nat where
  start := fun t => (t, [1, 2])
  tprogress := fun _ _ => (.cont (), [1, 2])

/-! ### Theorems -/

/-- The machine carried by a mapped response has the tag that the wrapping
function forces. -/
theorem machine_map_tag {A N N' : Type} {v : VariantTag}
    {r : Response A N} {f : A → DnsTransport D U T} {g : N → N'}
    {m : DnsTransport D U T} (hm : ((r.map f g).machine = some m))
    (hf : ∀ a, (f a).tag = v) : m.tag = v := by
  cases r <;> simp [Response.map, Response.machine] at hm <;> exact hm ▸ hf _

/-- C1: every lifecycle callback of `DnsTransport` (`ready`, `spawned`,
`timeout`, `wakeup`) dispatches to the active variant and re-wraps the
result in the same variant, so whenever a callback returns a continuing
machine, that machine's variant tag equals the input machine's tag, for
every behaviour of the inner machines. -/
theorem lifecycle_preserves_variant (ops : InnerOps D U T US TS ES)
    (self : DnsTransport D U T) (events : ES) (m : DnsTransport D U T) :
    ((DnsTransport.ready ops self events).machine = some m →
      m.tag = self.tag) ∧
    ((DnsTransport.spawned ops self).machine = some m → m.tag = self.tag) ∧
    ((DnsTransport.timeoutCb ops self).machine = some m →
      m.tag = self.tag) ∧
    ((DnsTransport.wakeupCb ops self).machine = some m →
      m.tag = self.tag) := by
  obtain ⟨c⟩ := self
  refine ⟨fun h => ?_, fun h => ?_, fun h => ?_, fun h => ?_⟩ <;>
    cases c <;> exact machine_map_tag h fun _ => rfl

/-- Witness for C1 at a concrete instance: the `ready` callback on the
`Udp` variant continues with a machine of the `Udp` tag. -/
theorem lifecycle_preserves_variant_witness :
    (DnsTransport.ready unitOps ⟨.udp ()⟩ ()).machine = some ⟨.udp ()⟩ ∧
    (⟨.udp ()⟩ : DnsTransport Unit Unit Unit).tag =
      (⟨.udp ()⟩ : DnsTransport Unit Unit Unit).tag :=
  ⟨rfl, (lifecycle_preserves_variant unitOps ⟨.udp ()⟩ () ⟨.udp ()⟩).1 rfl⟩

/-- C10: `Machine::create` on a `Udp` bootstrap seed only ever continues
with the `Udp` variant, on a `Tcp` seed only with the `Tcp` variant, and
never with the `Dispatcher` variant; the `Dispatcher` variant is exactly
what `DnsTransport::new` constructs. -/
theorem create_variant_matches_seed (ops : InnerOps D U T US TS ES) :
    (∀ (s : US) (m : DnsTransport D U T),
      (DnsTransport.create ops (BootstrapItem.udp s)).machine = some m →
        m.tag = .udp) ∧
    (∀ (s : TS) (m : DnsTransport D U T),
      (DnsTransport.create ops (BootstrapItem.tcp s)).machine = some m →
        m.tag = .tcp) ∧
    (∀ (seed : BootstrapItem US TS) (m : DnsTransport D U T),
      (DnsTransport.create ops seed).machine = some m →
        m.tag ≠ .dispatcher) ∧
    (∀ (Conf SndH : Type) (dNew : Conf → D × SndH) (conf : Conf),
      (DnsTransport.new dNew conf :
        DnsTransport D U T × Resolver SndH).1.tag = .dispatcher) := by
  refine ⟨fun s m h => machine_map_tag h fun _ => rfl,
    fun s m h => machine_map_tag h fun _ => rfl,
    fun seed m h => ?_, fun _ _ _ _ => rfl⟩
  cases seed with
  | udp s =>
    have ht : m.tag = VariantTag.udp := machine_map_tag h fun _ => rfl
    simp [ht]
  | tcp s =>
    have ht : m.tag = VariantTag.tcp := machine_map_tag h fun _ => rfl
    simp [ht]

/-- Witness for C10 at a concrete instance: creating from a `Udp` seed
continues with a machine tagged `Udp`. -/
theorem create_variant_matches_seed_witness :
    (DnsTransport.create unitOps (BootstrapItem.udp ())).machine =
      some ⟨.udp ()⟩ ∧
    (⟨.udp ()⟩ : DnsTransport Unit Unit Unit).tag = .udp :=
  ⟨rfl, (create_variant_matches_seed unitOps).1 () ⟨.udp ()⟩ rfl⟩

/-- C7: `DnsTransport::spawn` surfaces exactly the loop-creation failure
as its `Err`; a failure to add the machine to the loop is a panic, not an
`Err`; on success it returns the join handle with the resolver; and
`DnsTransport::new` yields the transport in the `Dispatcher` variant
paired with a resolver. -/
theorem spawn_only_err_is_loop_creation
    {Conf SndH LoopC IoErr AddErr : Type} (dNew : Conf → D × SndH)
    (loopNew : Except IoErr LoopC) (addMachine : LoopC → Except AddErr Unit)
    (conf : Conf) :
    (∀ e, (DnsTransport.spawn dNew loopNew addMachine conf :
        SpawnResult IoErr SndH) = .err e ↔ loopNew = .error e) ∧
    (∀ lp a, loopNew = .ok lp → addMachine lp = .error a →
      (DnsTransport.spawn dNew loopNew addMachine conf :
        SpawnResult IoErr SndH) = .panicked) ∧
    (∀ lp, loopNew = .ok lp → addMachine lp = .ok () →
      (DnsTransport.spawn dNew loopNew addMachine conf :
        SpawnResult IoErr SndH) =
        .ok () (DnsTransport.new dNew conf :
          DnsTransport D U T × Resolver SndH).2) ∧
    ((DnsTransport.new dNew conf :
      DnsTransport D U T × Resolver SndH).1.tag = .dispatcher) := by
  refine ⟨fun e => ?_, fun lp a hl ha => ?_, fun lp hl ha => ?_, rfl⟩
  · cases loopNew with
    | error e0 =>
      simp only [DnsTransport.spawn]
      constructor
      · rintro h
        cases h
        rfl
      · rintro h
        cases h
        rfl
    | ok lp =>
      simp only [DnsTransport.spawn]
      cases addMachine lp <;> simp
  · subst hl
    simp only [DnsTransport.spawn, ha]
  · subst hl
    simp only [DnsTransport.spawn, ha]
    rfl

/-- Witness for C7 at a concrete instance: with a failing loop creation,
`spawn` returns exactly that error. -/
theorem spawn_only_err_is_loop_creation_witness :
    (DnsTransport.spawn (fun _ : Unit => ((), ()))
      (Except.error 7 : Except Nat Unit)
      (fun _ => Except.ok () : Unit → Except Unit Unit) () :
      SpawnResult Nat Unit) = .err 7 :=
  ((@spawn_only_err_is_loop_creation Unit Unit Unit Unit Unit Unit Nat Unit
    (fun _ : Unit => ((), ())) (Except.error 7 : Except Nat Unit)
    (fun _ => Except.ok () : Unit → Except Unit Unit) ()).1 7).mpr rfl

/-- On a connected channel the emit closure submits exactly the queries of
the successfully encoding questions and records the last encode error. -/
theorem runEmit_connected (encode : Q → Except E Msg) (rid : RId)
    (qs : List Q) : ∀ (sent : List (Query Msg RId)) (res : Option E),
    runEmit encode true rid qs sent res =
      .finished (sent ++ encodedQueries encode rid qs)
        (lastEncodeErr encode res qs) := by
  induction qs with
  | nil => intro sent res; simp [runEmit, encodedQueries, lastEncodeErr]
  | cons q qs ih =>
    intro sent res
    cases h : encode q with
    | error e =>
      simp [runEmit, h, encodedQueries, lastEncodeErr, ih, Except.toOption]
    | ok msg =>
      simp [runEmit, h, encodedQueries, lastEncodeErr, ih, Except.toOption]

/-- A recorded encode error survives the rest of the emit fold. -/
theorem lastEncodeErr_isSome_mono (encode : Q → Except E Msg) :
    ∀ (qs : List Q) (res : Option E), res.isSome →
      (lastEncodeErr encode res qs).isSome := by
  intro qs
  induction qs with
  | nil => intro res h; simpa [lastEncodeErr] using h
  | cons q0 qs ih =>
    intro res h
    cases h0 : encode q0 with
    | error e =>
      simp only [lastEncodeErr, h0]
      exact ih (some e) rfl
    | ok msg =>
      simp only [lastEncodeErr, h0]
      exact ih res h

/-- If any question of the list fails to encode, the emit fold ends with a
recorded encode error. -/
theorem lastEncodeErr_isSome_of_fail (encode : Q → Except E Msg) (q : Q)
    (e : E) : ∀ (qs : List Q), q ∈ qs → encode q = .error e →
      ∀ res, (lastEncodeErr encode res qs).isSome := by
  intro qs
  induction qs with
  | nil => intro h; cases h
  | cons q0 qs ih =>
    intro hmem hq res
    cases h : encode q0 with
    | error e0 =>
      simp only [lastEncodeErr, h]
      exact lastEncodeErr_isSome_mono encode qs (some e0) rfl
    | ok msg =>
      rcases List.mem_cons.mp hmem with h0 | h0
      · subst h0
        rw [hq] at h
        cases h
      · simp only [lastEncodeErr, h]
        exact ih h0 hq res

/-- If every question of the list encodes, the emit fold keeps `res`. -/
theorem lastEncodeErr_all_ok (encode : Q → Except E Msg) :
    ∀ (qs : List Q), (∀ q ∈ qs, ∃ msg, encode q = .ok msg) →
      ∀ res, lastEncodeErr encode res qs = res := by
  intro qs
  induction qs with
  | nil => intro _ res; rfl
  | cons q0 qs ih =>
    intro hok res
    obtain ⟨msg, hmsg⟩ := hok q0 (by simp)
    simp only [lastEncodeErr, hmsg]
    exact ih (fun q hq => hok q (by simp [hq])) res

/-- On a disconnected channel, the first successfully encoding question
makes the unwrapped `send` panic. -/
theorem runEmit_disconnected_panics (encode : Q → Except E Msg)
    (rid : RId) (q : Q) (msg : Msg) :
    ∀ (qs : List Q), q ∈ qs → encode q = .ok msg →
      ∀ (sent : List (Query Msg RId)) res, ∃ sent2,
        runEmit encode false rid qs sent res = .panicked sent2 := by
  intro qs
  induction qs with
  | nil => intro h; cases h
  | cons q0 qs ih =>
    intro hmem hq sent res
    cases h : encode q0 with
    | ok m0 =>
      exact ⟨sent, by simp [runEmit, h]⟩
    | error e =>
      rcases List.mem_cons.mp hmem with h0 | h0
      · subst h0
        rw [hq] at h
        cases h
      · simp only [runEmit, h]
        exact ih h0 hq sent (some e)

/-- Closed form of `ResolverMachine.mkNew` on a connected channel. -/
theorem mkNew_connected_eq (ops : TaskOps Tk S Q E Msg)
    (encode : Q → Except E Msg) (requests : SndH) (rid : RId) (task : Tk) :
    ResolverMachine.mkNew ops encode true requests rid task =
      ⟨encodedQueries encode rid (ops.start task).2,
        match lastEncodeErr encode none (ops.start task).2 with
        | some e => .err (.encode e)
        | none => .ok ⟨requests, rid, (ops.start task).1⟩⟩ := by
  unfold ResolverMachine.mkNew
  rw [runEmit_connected]
  cases lastEncodeErr encode none (ops.start task).2 <;> simp

/-- Closed form of `ResolverMachine.progress` on a connected channel. -/
theorem progress_connected_eq (ops : TaskOps Tk S Q E Msg)
    (encode : Q → Except E Msg) (m : ResolverMachine Tk SndH RId)
    (r : Except (DnsError E) Msg) :
    m.progress ops encode true r =
      ⟨encodedQueries encode m.receiver (ops.tprogress m.task r).2,
        match lastEncodeErr encode none (ops.tprogress m.task r).2 with
        | some e => .error (.encode e)
        | none =>
          match (ops.tprogress m.task r).1 with
          | .cont t => .cont ⟨m.requests, m.receiver, t⟩
          | .success s => .success s
          | .error e => .error e⟩ := by
  unfold ResolverMachine.progress
  rw [runEmit_connected]
  cases lastEncodeErr encode none (ops.tprogress m.task r).2 with
  | none => cases (ops.tprogress m.task r).1 <;> simp
  | some e => simp

/-- Running the sync loop after `n` `Continue` steps reaches the same
result as running it from the machine those steps produced. -/
theorem syncLoop_shift (ops : TaskOps Tk S Q E Msg)
    (encode : Q → Except E Msg) (connected : Bool) :
    ∀ (n : Nat) (inputs : List (RecvInput E Msg))
      (m m2 : ResolverMachine Tk SndH RId) (i : RecvInput E Msg)
      (rest : List (RecvInput E Msg)),
    runSteps ops encode connected m inputs n = some (m2, i :: rest) →
    (syncLoop ops encode connected m inputs : SyncResult S E) =
      syncLoop ops encode connected m2 (i :: rest) := by
  intro n
  induction n with
  | zero =>
    intro inputs m m2 i rest hr
    simp only [runSteps] at hr
    have h3 := Option.some.inj hr
    have hm : m = m2 := congrArg Prod.fst h3
    have hi : inputs = i :: rest := congrArg Prod.snd h3
    subst hm
    subst hi
    rfl
  | succ n ih =>
    intro inputs m m2 i rest hr
    cases inputs with
    | nil =>
      simp only [runSteps] at hr
      exact Option.noConfusion hr
    | cons i0 rest0 =>
      cases hstep : (m.step ops encode connected i0).outcome with
      | cont m0 =>
        have h2 : (match (m.step ops encode connected i0).outcome with
            | .cont m3 => runSteps ops encode connected m3 rest0 n
            | _ => none) = some (m2, i :: rest) := hr
        rw [hstep] at h2
        have hl : (syncLoop ops encode connected m (i0 :: rest0) :
            SyncResult S E) = syncLoop ops encode connected m0 rest0 := by
          have h3 : (match (m.step ops encode connected i0).outcome with
              | .cont m3 => syncLoop ops encode connected m3 rest0
              | .success s2 => SyncResult.ok s2
              | .error e => SyncResult.err e
              | .panicked => SyncResult.panicked) =
              syncLoop ops encode connected m0 rest0 := by
            rw [hstep]
          exact h3
        rw [hl]
        exact ih rest0 m0 m2 i rest h2
      | success s0 =>
        have h2 : (match (m.step ops encode connected i0).outcome with
            | .cont m3 => runSteps ops encode connected m3 rest0 n
            | _ => none) = some (m2, i :: rest) := hr
        rw [hstep] at h2
        exact Option.noConfusion h2
      | error e0 =>
        have h2 : (match (m.step ops encode connected i0).outcome with
            | .cont m3 => runSteps ops encode connected m3 rest0 n
            | _ => none) = some (m2, i :: rest) := hr
        rw [hstep] at h2
        exact Option.noConfusion h2
      | panicked =>
        have h2 : (match (m.step ops encode connected i0).outcome with
            | .cont m3 => runSteps ops encode connected m3 rest0 n
            | _ => none) = some (m2, i :: rest) := hr
        rw [hstep] at h2
        exact Option.noConfusion h2

/-- The sync loop ends in `ok s` exactly when, after some number of
`Continue` steps, a step's outcome is `success s`. -/
theorem syncLoop_ok_iff (ops : TaskOps Tk S Q E Msg)
    (encode : Q → Except E Msg) (connected : Bool) (s : S) :
    ∀ (inputs : List (RecvInput E Msg)) (m : ResolverMachine Tk SndH RId),
    syncLoop ops encode connected m inputs = .ok s ↔
      ∃ n m2 i rest,
        runSteps ops encode connected m inputs n = some (m2, i :: rest) ∧
        (m2.step ops encode connected i).outcome = .success s := by
  intro inputs
  induction inputs with
  | nil =>
    intro m
    constructor
    · intro h
      exact absurd h (by simp [syncLoop])
    · rintro ⟨n, m2, i, rest, hr, hs⟩
      cases n with
      | zero => simp [runSteps] at hr
      | succ n =>
        simp only [runSteps] at hr
        exact Option.noConfusion hr
  | cons i0 rest0 ih =>
    intro m
    constructor
    · intro h
      have h2 : (match (m.step ops encode connected i0).outcome with
          | .cont m3 => syncLoop ops encode connected m3 rest0
          | .success s2 => SyncResult.ok s2
          | .error e => SyncResult.err e
          | .panicked => SyncResult.panicked) = SyncResult.ok s := h
      cases hstep : (m.step ops encode connected i0).outcome with
      | cont m0 =>
        rw [hstep] at h2
        obtain ⟨n, m2, i, rest, hr, hs⟩ := (ih m0).mp h2
        refine ⟨n + 1, m2, i, rest, ?_, hs⟩
        have h3 : (match (m.step ops encode connected i0).outcome with
            | .cont m3 => runSteps ops encode connected m3 rest0 n
            | _ => none) = some (m2, i :: rest) := by
          rw [hstep]
          exact hr
        exact h3
      | success s0 =>
        rw [hstep] at h2
        have h3 : (SyncResult.ok s0 : SyncResult S E) = SyncResult.ok s := h2
        cases h3
        exact ⟨0, m, i0, rest0, rfl, hstep⟩
      | error e0 =>
        rw [hstep] at h2
        exact absurd h2 (by simp)
      | panicked =>
        rw [hstep] at h2
        exact absurd h2 (by simp)
    · rintro ⟨n, m2, i, rest, hr, hs⟩
      rw [syncLoop_shift ops encode connected n (i0 :: rest0) m m2 i rest hr]
      have h2 : (match (m2.step ops encode connected i).outcome with
          | .cont m3 => syncLoop ops encode connected m3 rest
          | .success s2 => SyncResult.ok s2
          | .error e => SyncResult.err e
          | .panicked => SyncResult.panicked) = SyncResult.ok s := by
        rw [hs]
      exact h2

/-- The sync loop ends in `err e` exactly when, after some number of
`Continue` steps, a step's outcome is `error e`. -/
theorem syncLoop_err_iff (ops : TaskOps Tk S Q E Msg)
    (encode : Q → Except E Msg) (connected : Bool) (e : DnsError E) :
    ∀ (inputs : List (RecvInput E Msg)) (m : ResolverMachine Tk SndH RId),
    (syncLoop ops encode connected m inputs : SyncResult S E) = .err e ↔
      ∃ n m2 i rest,
        runSteps ops encode connected m inputs n = some (m2, i :: rest) ∧
        (m2.step ops encode connected i).outcome = .error e := by
  intro inputs
  induction inputs with
  | nil =>
    intro m
    constructor
    · intro h
      exact absurd h (by simp [syncLoop])
    · rintro ⟨n, m2, i, rest, hr, hs⟩
      cases n with
      | zero => simp [runSteps] at hr
      | succ n =>
        simp only [runSteps] at hr
        exact Option.noConfusion hr
  | cons i0 rest0 ih =>
    intro m
    constructor
    · intro h
      have h2 : (match (m.step ops encode connected i0).outcome with
          | .cont m3 => syncLoop ops encode connected m3 rest0
          | .success s2 => SyncResult.ok s2
          | .error e2 => SyncResult.err e2
          | .panicked => SyncResult.panicked) = SyncResult.err e := h
      cases hstep : (m.step ops encode connected i0).outcome with
      | cont m0 =>
        rw [hstep] at h2
        obtain ⟨n, m2, i, rest, hr, hs⟩ := (ih m0).mp h2
        refine ⟨n + 1, m2, i, rest, ?_, hs⟩
        have h3 : (match (m.step ops encode connected i0).outcome with
            | .cont m3 => runSteps ops encode connected m3 rest0 n
            | _ => none) = some (m2, i :: rest) := by
          rw [hstep]
          exact hr
        exact h3
      | success s0 =>
        rw [hstep] at h2
        exact absurd h2 (by simp)
      | error e0 =>
        rw [hstep] at h2
        have h3 : (SyncResult.err e0 : SyncResult S E) = SyncResult.err e := h2
        cases h3
        exact ⟨0, m, i0, rest0, rfl, hstep⟩
      | panicked =>
        rw [hstep] at h2
        exact absurd h2 (by simp)
    · rintro ⟨n, m2, i, rest, hr, hs⟩
      rw [syncLoop_shift ops encode connected n (i0 :: rest0) m m2 i rest hr]
      have h2 : (match (m2.step ops encode connected i).outcome with
          | .cont m3 => syncLoop ops encode connected m3 rest
          | .success s2 => SyncResult.ok s2
          | .error e2 => SyncResult.err e2
          | .panicked => SyncResult.panicked) = SyncResult.err e := by
        rw [hs]
      exact h2

/-- C5: sync-channel disconnection is reported as the timeout error kind:
a failing blocking `recv` makes `step` return `Progress::Error(Timeout)`,
and a `Disconnected` result of `try_recv` makes `wakeup` return
`Progress::Error(Timeout)` — the same kind as a genuine query timeout. -/
theorem disconnect_reported_as_timeout (ops : TaskOps Tk S Q E Msg)
    (encode : Q → Except E Msg) (connected : Bool)
    (m : ResolverMachine Tk SndH RId) :
    (m.step ops encode connected .disconnected).outcome =
      .error .timeout ∧
    (m.wakeup ops encode connected .disconnected).outcome =
      .error .timeout :=
  ⟨rfl, rfl⟩

/-- C6: `wakeup` is non-blocking and performs at most one progress step
per call: on `Empty` it returns `Continue` with the very same machine
(same task, receiver and request sender) and submits nothing; on a ready
response it is exactly one `progress` call on that single response. -/
theorem wakeup_single_step (ops : TaskOps Tk S Q E Msg)
    (encode : Q → Except E Msg) (connected : Bool)
    (m : ResolverMachine Tk SndH RId) :
    (m.wakeup ops encode connected .empty = ⟨[], .cont m⟩) ∧
    (∀ r, m.wakeup ops encode connected (.msg r) =
      m.progress ops encode connected r) :=
  ⟨rfl, fun _ => rfl⟩

/-- C3: `progress` hands the response to the task's own `progress` exactly
once (the model applies `ops.tprogress` once to that response); every
emitted question that encodes successfully is wrapped in a `Query`
carrying the encoded message and a sender to this machine's receiver and
submitted to the request queue, in emission order; and when every emitted
question encodes, the returned value mirrors the task's result, with
`Continue` rebuilding the machine around the new task state and the same
receiver and request sender.  The statement fixes a live request channel;
a dead one panics instead, see the C9 theorem. -/
theorem progress_mirrors_task (ops : TaskOps Tk S Q E Msg)
    (encode : Q → Except E Msg) (m : ResolverMachine Tk SndH RId)
    (r : Except (DnsError E) Msg) :
    ((m.progress ops encode true r).submitted =
      encodedQueries encode m.receiver (ops.tprogress m.task r).2) ∧
    ((∀ q ∈ (ops.tprogress m.task r).2, ∃ msg, encode q = .ok msg) →
      (m.progress ops encode true r).outcome =
        match (ops.tprogress m.task r).1 with
        | .cont t => .cont ⟨m.requests, m.receiver, t⟩
        | .success s => .success s
        | .error e => .error e) := by
  constructor
  · rw [progress_connected_eq]
  · intro hok
    rw [progress_connected_eq]
    show (match lastEncodeErr encode none (ops.tprogress m.task r).2 with
        | some e => StepOutcome.error (DnsError.encode e)
        | none =>
          match (ops.tprogress m.task r).1 with
          | .cont t => .cont ⟨m.requests, m.receiver, t⟩
          | .success s => .success s
          | .error e => .error e) = _
    rw [lastEncodeErr_all_ok encode (ops.tprogress m.task r).2 hok none]

/-- Witness for C3 at a concrete instance: a task that emits two encodable
questions and continues makes `progress` return `Continue` of the machine
rebuilt around the new task state. -/
theorem progress_mirrors_task_witness :
    (∀ q ∈ (okTaskOps.tprogress () (Except.ok 9)).2, ∃ msg,
      witnessEncode q = .ok msg) ∧
    ((⟨(), (), ()⟩ : ResolverMachine Unit Unit Unit).progress okTaskOps
      witnessEncode true (Except.ok 9)).outcome =
      StepOutcome.cont ⟨(), (), ()⟩ := by
  have hok : ∀ q ∈ (okTaskOps.tprogress () (Except.ok 9)).2, ∃ msg,
      witnessEncode q = .ok msg := by
    intro q hq
    rcases List.mem_cons.mp hq with rfl | hq
    · exact ⟨1, rfl⟩
    rcases List.mem_cons.mp hq with rfl | hq
    · exact ⟨2, rfl⟩
    cases hq
  exact ⟨hok, (progress_mirrors_task okTaskOps witnessEncode
    ⟨(), (), ()⟩ (Except.ok 9)).2 hok⟩

/-- C4: an emitted question that fails to encode makes the whole step fail
with a message-construction error: `ResolverMachine::new` returns `Err`
and `progress` returns `Progress::Error`, each carrying the recorded
encode error (the last one when several questions fail).  The statement
fixes a live request channel; a dead one can panic first, see the C9
theorem. -/
theorem encode_failure_fails_step (ops : TaskOps Tk S Q E Msg)
    (encode : Q → Except E Msg) (requests : SndH) (rid : RId) (task : Tk)
    (m : ResolverMachine Tk SndH RId) (r : Except (DnsError E) Msg)
    (q : Q) (e : E) :
    (q ∈ (ops.start task).2 → encode q = .error e →
      ∃ e2, (ResolverMachine.mkNew ops encode true requests rid
        task).outcome = .err (.encode e2)) ∧
    (q ∈ (ops.tprogress m.task r).2 → encode q = .error e →
      ∃ e2, (m.progress ops encode true r).outcome =
        .error (.encode e2)) := by
  constructor
  · intro hmem hq
    obtain ⟨e2, he2⟩ := Option.isSome_iff_exists.mp
      (lastEncodeErr_isSome_of_fail encode q e (ops.start task).2 hmem hq
        none)
    refine ⟨e2, ?_⟩
    rw [mkNew_connected_eq]
    simp only [he2]
  · intro hmem hq
    obtain ⟨e2, he2⟩ := Option.isSome_iff_exists.mp
      (lastEncodeErr_isSome_of_fail encode q e (ops.tprogress m.task r).2
        hmem hq none)
    refine ⟨e2, ?_⟩
    rw [progress_connected_eq]
    simp only [he2]

/-- Witness for C4 at a concrete instance: question `0` of the start
emission fails to encode and `ResolverMachine::new` returns an encode
error. -/
theorem encode_failure_fails_step_witness :
    (0 ∈ (emitTaskOps.start ()).2 ∧ witnessEncode 0 = .error ()) ∧
    ∃ e2, (ResolverMachine.mkNew emitTaskOps witnessEncode true () ()
      ()).outcome = .err (.encode e2) :=
  ⟨⟨by decide, rfl⟩,
    (encode_failure_fails_step emitTaskOps witnessEncode () () ()
      ⟨(), (), ()⟩ (Except.ok 0) 0 ()).1 (by decide) rfl⟩

/-- C8: a failing emit neither rolls back earlier emits of the same step
nor lets the task's own returned value through: under a failing question,
the submitted queries are still exactly those of all successfully
encoding questions, in order, and the outcome is an encode error whatever
`ops.tprogress` returned (the theorem quantifies over `ops`, so in
particular when the task answered `Success` or `Continue`). -/
theorem failed_emit_no_rollback (ops : TaskOps Tk S Q E Msg)
    (encode : Q → Except E Msg) (requests : SndH) (rid : RId) (task : Tk)
    (m : ResolverMachine Tk SndH RId) (r : Except (DnsError E) Msg)
    (q : Q) (e : E) :
    (q ∈ (ops.start task).2 → encode q = .error e →
      (ResolverMachine.mkNew ops encode true requests rid task).submitted =
        encodedQueries encode rid (ops.start task).2 ∧
      ∃ e2, (ResolverMachine.mkNew ops encode true requests rid
        task).outcome = .err (.encode e2)) ∧
    (q ∈ (ops.tprogress m.task r).2 → encode q = .error e →
      (m.progress ops encode true r).submitted =
        encodedQueries encode m.receiver (ops.tprogress m.task r).2 ∧
      ∃ e2, (m.progress ops encode true r).outcome =
        .error (.encode e2)) := by
  constructor
  · intro hmem hq
    refine ⟨by rw [mkNew_connected_eq], ?_⟩
    obtain ⟨e2, he2⟩ := Option.isSome_iff_exists.mp
      (lastEncodeErr_isSome_of_fail encode q e (ops.start task).2 hmem hq
        none)
    refine ⟨e2, ?_⟩
    rw [mkNew_connected_eq]
    simp only [he2]
  · intro hmem hq
    refine ⟨by rw [progress_connected_eq], ?_⟩
    obtain ⟨e2, he2⟩ := Option.isSome_iff_exists.mp
      (lastEncodeErr_isSome_of_fail encode q e (ops.tprogress m.task r).2
        hmem hq none)
    refine ⟨e2, ?_⟩
    rw [progress_connected_eq]
    simp only [he2]

/-- Witness for C8 at a concrete instance: a start emission of questions
`1` then `0` (the latter failing to encode) under a task that claims
`Success`: the query for `1` is submitted anyway and the outcome is the
encode error, not the claimed success. -/
theorem failed_emit_no_rollback_witness :
    (ResolverMachine.mkNew emitTaskOps witnessEncode true () ()
      ()).submitted = encodedQueries witnessEncode () [1, 0] ∧
    ∃ e2, (ResolverMachine.mkNew emitTaskOps witnessEncode true () ()
      ()).outcome = .err (.encode e2) :=
  (failed_emit_no_rollback emitTaskOps witnessEncode () () ()
    ⟨(), (), ()⟩ (Except.ok 0) 0 ()).1 (by decide) rfl

/-- C9: submitting a query on a disconnected request channel panics: when
the dispatcher's receiving endpoint is gone, the first successfully
encoding emitted question makes the unwrapped `send` panic — in `new`
(hence visible to `sync_task` and `task` callers) and in `progress`
(hence to `step` and `wakeup` callers) — instead of surfacing an error. -/
theorem send_unwrap_panics_when_disconnected (ops : TaskOps Tk S Q E Msg)
    (encode : Q → Except E Msg) (resolv : Resolver SndH) (rid : RId)
    (task : Tk) (m : ResolverMachine Tk SndH RId)
    (r : Except (DnsError E) Msg) (q : Q) (msg : Msg)
    (inputs : List (RecvInput E Msg)) :
    (q ∈ (ops.start task).2 → encode q = .ok msg →
      (ResolverMachine.mkNew ops encode false resolv.requests rid
        task).outcome = .panicked ∧
      Resolver.syncTask ops encode false resolv rid task inputs =
        .panicked) ∧
    (q ∈ (ops.tprogress m.task r).2 → encode q = .ok msg →
      (m.progress ops encode false r).outcome = .panicked ∧
      (m.step ops encode false (.msg r)).outcome = .panicked ∧
      (m.wakeup ops encode false (.msg r)).outcome = .panicked) := by
  constructor
  · intro hmem hq
    obtain ⟨sent2, hrun⟩ := runEmit_disconnected_panics encode rid q msg
      (ops.start task).2 hmem hq [] none
    have hout : (ResolverMachine.mkNew ops encode false resolv.requests rid
        task).outcome = .panicked := by
      unfold ResolverMachine.mkNew
      rw [hrun]
    refine ⟨hout, ?_⟩
    unfold Resolver.syncTask
    rw [hout]
  · intro hmem hq
    obtain ⟨sent2, hrun⟩ := runEmit_disconnected_panics encode m.receiver q
      msg (ops.tprogress m.task r).2 hmem hq [] none
    have hout : (m.progress ops encode false r).outcome = .panicked := by
      unfold ResolverMachine.progress
      rw [hrun]
    exact ⟨hout, hout, hout⟩

/-- Witness for C9 at a concrete instance: with a disconnected channel,
the encodable question `1` of the start emission makes machine creation
panic. -/
theorem send_unwrap_panics_when_disconnected_witness :
    (1 ∈ (emitTaskOps.start ()).2 ∧ witnessEncode 1 = .ok 1) ∧
    (ResolverMachine.mkNew emitTaskOps witnessEncode false () ()
      ()).outcome = .panicked :=
  ⟨⟨by decide, rfl⟩,
    ((send_unwrap_panics_when_disconnected emitTaskOps witnessEncode
      (⟨()⟩ : Resolver Unit) () () ⟨(), (), ()⟩ (Except.ok 0) 1 1 []).1
      (by decide) rfl).1⟩

/-- C2: `Resolver::sync_task` creates a `ResolverMachine` (propagating its
creation error), then repeatedly calls `step`, continuing on every
`Progress::Continue`; it returns `Ok s` exactly when, after some number of
`Continue` steps, a step yields `Progress::Success(s)`, and `Err e`
exactly when some step yields `Progress::Error(e)`. -/
theorem sync_task_drives_machine (ops : TaskOps Tk S Q E Msg)
    (encode : Q → Except E Msg) (connected : Bool)
    (resolv : Resolver SndH) (rid : RId) (task : Tk)
    (inputs : List (RecvInput E Msg)) :
    (∀ e, (ResolverMachine.mkNew ops encode connected resolv.requests rid
        task).outcome = .err e →
      Resolver.syncTask ops encode connected resolv rid task inputs =
        .err e) ∧
    (∀ m0, (ResolverMachine.mkNew ops encode connected resolv.requests rid
        task).outcome = .ok m0 →
      (∀ s, Resolver.syncTask ops encode connected resolv rid task inputs =
          .ok s ↔ ∃ n m2 i rest,
          runSteps ops encode connected m0 inputs n = some (m2, i :: rest) ∧
          (m2.step ops encode connected i).outcome = .success s) ∧
      (∀ e, Resolver.syncTask ops encode connected resolv rid task inputs =
          .err e ↔ ∃ n m2 i rest,
          runSteps ops encode connected m0 inputs n = some (m2, i :: rest) ∧
          (m2.step ops encode connected i).outcome = .error e)) := by
  constructor
  · intro e h
    unfold Resolver.syncTask
    rw [h]
  · intro m0 h
    have hst : Resolver.syncTask ops encode connected resolv rid task
        inputs = syncLoop ops encode connected m0 inputs := by
      unfold Resolver.syncTask
      rw [h]
    rw [hst]
    exact ⟨fun s => syncLoop_ok_iff ops encode connected s inputs m0,
      fun e => syncLoop_err_iff ops encode connected e inputs m0⟩

/-- Witness for C2 at a concrete instance: a task that succeeds on the
first response makes `sync_task` return `Ok` on a one-response schedule. -/
theorem sync_task_drives_machine_witness :
    Resolver.syncTask quietTaskOps witnessEncode true (⟨()⟩ : Resolver Unit)
      () () [RecvInput.msg (Except.ok 5)] = SyncResult.ok () :=
  (((sync_task_drives_machine quietTaskOps witnessEncode true
    (⟨()⟩ : Resolver Unit) () () [RecvInput.msg (Except.ok 5)]).2
    ⟨(), (), ()⟩ rfl).1 ()).mpr
    ⟨0, ⟨(), (), ()⟩, RecvInput.msg (Except.ok 5), [], rfl, rfl⟩

end DomainStub
